import Mathlib

/-!
Verification development for the AI-BROWSER repository.

The definitions below are a shallow embedding of:
* the plan-execution / action-resolution logic of the background service
  worker (src/unnamed/part_002, `executePlan`), and
* the WebSocket bridge client (src/chrome-extension/src/lib/mcp-bridge.ts,
  class `MCPBridge`).

JavaScript values flowing through the plan steps are JSON values (they come
from `JSON.parse` of the planner output), modelled by `AIB.Value`.  JS
truthiness, the `||` / `??` operators and property lookup are modelled
explicitly.  Asynchronous behaviour of the bridge is modelled as explicit
state passing plus ordered event/delivery traces.
-/

namespace AIB

/-- JSON-like runtime values (the shapes produced by `JSON.parse`). -/
inductive Value where
  | null
  | bool (b : Bool)
  | num (n : Int)
  | str (s : String)
  | arr (elems : List Value)
  | obj (fields : List (String × Value))

/-- Association-list lookup on object fields (`o[k]`; `none` = `undefined`). -/
def lookupKV : List (String × Value) → String → Option Value
  | [], _ => none
  | (k, v) :: rest, key => if k = key then some v else lookupKV rest key

/-- Property lookup on a value; non-objects have no string properties here. -/
def getKey (v : Value) (k : String) : Option Value :=
  match v with
  | .obj kvs => lookupKV kvs k
  | _ => none

/-- Set/overwrite a field, keeping the original insertion position
(JS property-update order). -/
def setKV : List (String × Value) → String → Value → List (String × Value)
  | [], k, v => [(k, v)]
  | (k', v') :: rest, k, v =>
      if k' = k then (k, v) :: rest else (k', v') :: setKV rest k v

/-- Remove a field entirely (used to model overriding a key with
`undefined` in a spread, which makes all lookups miss it). -/
def eraseKV : List (String × Value) → String → List (String × Value)
  | [], _ => []
  | (k', v') :: rest, k =>
      if k' = k then eraseKV rest k else (k', v') :: eraseKV rest k

/-- `str.includes(pat)` on character lists. -/
def containsSeq (pat : List Char) : List Char → Bool
  | [] => pat.isEmpty
  | c :: rest => pat.isPrefixOf (c :: rest) || containsSeq pat rest

/-- `s.includes(pat)`. -/
def strIncludes (s pat : String) : Bool :=
  containsSeq pat.toList s.toList

/-- `s.toLowerCase()` (ASCII, which covers every tool name involved). -/
def strToLower (s : String) : String :=
  ⟨s.data.map Char.toLower⟩

/-- `s.startsWith(pat)`. -/
def strStartsWith (s pat : String) : Bool :=
  pat.data.isPrefixOf s.data

/-- `s.trim()`. -/
def strTrim (s : String) : String :=
  ⟨((s.data.dropWhile Char.isWhitespace).reverse.dropWhile Char.isWhitespace).reverse⟩

/-- `s.length === 0`. -/
def strEmpty (s : String) : Bool :=
  s.data.isEmpty

/-- JS truthiness of a possibly-absent value (`undefined` is falsy). -/
def jsTruthy : Option Value → Bool
  | none => false
  | some .null => false
  | some (.bool b) => b
  | some (.num n) => n != 0
  | some (.str s) => !strEmpty s
  | some (.arr _) => true
  | some (.obj _) => true

/-- JS nullish test (`undefined` or `null`). -/
def jsNullish : Option Value → Bool
  | none => true
  | some .null => true
  | _ => false

/-- `a ?? b`. -/
def jsCoalesce (a b : Option Value) : Option Value :=
  if jsNullish a then b else a

mutual
/-- JS `String(v)` coercion for the value shapes that can appear here. -/
def jsToString : Value → String
  | .null => "null"
  | .bool b => cond b "true" "false"
  | .num n => toString n
  | .str s => s
  | .arr xs => String.intercalate "," (jsToStringList xs)
  | .obj _ => "[object Object]"

def jsToStringList : List Value → List String
  | [] => []
  | v :: vs => jsToString v :: jsToStringList vs
end

/-- First truthy value of a `||` chain, else `none` (all operands falsy). -/
def firstTruthyO : List (Option Value) → Option Value
  | [] => none
  | o :: rest => if jsTruthy o then o else firstTruthyO rest

/-- A `||` chain ending in a default (e.g. `a || b || {}`). -/
def firstTruthyD (l : List (Option Value)) (dflt : Value) : Value :=
  match firstTruthyO l with
  | some v => v
  | none => dflt

/-- A plan step as produced by the planner (`{ type, params?, ... }`).
`top` holds any additional fields the model placed at the step's top level
(`tool`, `toolName`, `url`, `arguments`, ...), which `executePlan` also
consults. -/
structure PlanStep where
  type : String
  params : Option Value := none
  top : List (String × Value) := []

/-- `step?.params && typeof step.params === 'object' ? step.params : {}`.
Non-object params (and JS arrays, whose string-keyed lookups all miss)
behave as the empty bag for every lookup performed on `mergedParams`. -/
def mergedParamsOf (params : Option Value) : List (String × Value) :=
  match params with
  | some (.obj kvs) => kvs
  | _ => []

/-- Tool-name resolution chain of `executePlan` (src/unnamed/part_002,
lines 222-230): `params.tool || params.toolName || params.tool_name ||
params.name || step.tool || step.toolName || step.tool_name`; the chain
yields its first truthy operand, and a falsy outcome triggers inference. -/
def resolveToolName (stepTop merged : List (String × Value)) : Option Value :=
  firstTruthyO
    [lookupKV merged "tool", lookupKV merged "toolName",
     lookupKV merged "tool_name", lookupKV merged "name",
     lookupKV stepTop "tool", lookupKV stepTop "toolName",
     lookupKV stepTop "tool_name"]

/-- Best-effort tool inference from parameter shape (src/unnamed/part_002,
lines 236-257), used when no tool name was found. -/
def inferTool (merged : List (String × Value)) : Option (String × List (String × Value)) :=
  let sel := lookupKV merged "selector"
  if jsTruthy sel then
    match lookupKV merged "value" with
    | some v => some ("extension_fill_selector",
        [("selector", sel.getD .null), ("value", v)])
    | none => some ("extension_click_selector", [("selector", sel.getD .null)])
  else if jsTruthy (lookupKV merged "url") then
    some ("navigate_page",
      [("type", .str "url"), ("url", (lookupKV merged "url").getD .null)])
  else if jsTruthy (lookupKV merged "code") then
    some ("extension_evaluate_script", [("code", (lookupKV merged "code").getD .null)])
  else
    match lookupKV merged "text" with
    | some (.str t) =>
        if strEmpty t then none
        else some ("extension_fill_selector",
          [("selector", jsCoalesce (lookupKV merged "selector") (some (.str "input")) |>.getD (.str "input")),
           ("value", .str t)])
    | _ => none

/-- The argument-bag `||` chain (src/unnamed/part_002, lines 275-285):
`params.arguments || params.tool_params || params.toolParams || params.args
|| step.arguments || step.args || step.tool_params || step.toolParams || {}`. -/
def argsChain (stepTop merged : List (String × Value)) : Value :=
  firstTruthyD
    [lookupKV merged "arguments", lookupKV merged "tool_params",
     lookupKV merged "toolParams", lookupKV merged "args",
     lookupKV stepTop "arguments", lookupKV stepTop "args",
     lookupKV stepTop "tool_params", lookupKV stepTop "toolParams"]
    (.obj [])

/-- `Object.keys(v).length === 0` for the value shapes the chain can yield
(its result is always truthy, so `null`/`undefined` cannot occur). -/
def jsKeysEmpty : Value → Bool
  | .obj kvs => kvs.isEmpty
  | .arr xs => xs.isEmpty
  | .str s => strEmpty s
  | _ => true

/-- Own enumerable properties of a value, as JS object spread `{...v}`
sees them. -/
def spreadOf : Value → List (String × Value)
  | .obj kvs => kvs
  | .arr xs => (xs.enum.map fun p => (toString p.1, p.2))
  | .str s => (s.toList.enum.map fun p => (toString p.1, Value.str (String.singleton p.2)))
  | _ => []

/-- `{...v, k: x}`. -/
def spreadSet (v : Value) (k : String) (x : Value) : Value :=
  .obj (setKV (spreadOf v) k x)

/-- Fold right-hand spread fields over left-hand ones (`{...a, ...b}`). -/
def spreadMerge (a b : List (String × Value)) : List (String × Value) :=
  b.foldl (fun acc kv => setKV acc kv.1 kv.2) a

/-- `typeof v === 'object'` for a present, truthy value. -/
def isObjectType : Value → Bool
  | .obj _ => true
  | .arr _ => true
  | _ => false

/-- Empty-bag branch of argument normalization (src/unnamed/part_002,
lines 290-312): pull `url` (step then params, the later write winning),
then step-level `selector`, `value`, `code`, then spread any
`tool_params` objects (step then params) over the result. -/
def buildFromScalars (stepTop merged : List (String × Value)) (t0 : Value) : Value :=
  let t1 := if jsTruthy (lookupKV stepTop "url") then
      spreadSet t0 "url" ((lookupKV stepTop "url").getD .null) else t0
  let t2 := if jsTruthy (lookupKV merged "url") then
      spreadSet t1 "url" ((lookupKV merged "url").getD .null) else t1
  let t3 := if jsTruthy (lookupKV stepTop "selector") then
      spreadSet t2 "selector" ((lookupKV stepTop "selector").getD .null) else t2
  let t4 := if jsTruthy (lookupKV stepTop "value") then
      spreadSet t3 "value" ((lookupKV stepTop "value").getD .null) else t3
  let t5 := if jsTruthy (lookupKV stepTop "code") then
      spreadSet t4 "code" ((lookupKV stepTop "code").getD .null) else t4
  let t6 := match lookupKV stepTop "tool_params" with
    | some tp => if jsTruthy (some tp) && isObjectType tp then
        Value.obj (spreadMerge (spreadOf t5) (spreadOf tp)) else t5
    | none => t5
  match lookupKV merged "tool_params" with
  | some tp => if jsTruthy (some tp) && isObjectType tp then
      Value.obj (spreadMerge (spreadOf t6) (spreadOf tp)) else t6
  | none => t6

/-- Property assignment `v.k = x`; on the object bags the program builds
this updates the field (non-object bags are unreachable from plan input
and left unchanged). -/
def jsSetProp (v : Value) (k : String) (x : Value) : Value :=
  match v with
  | .obj kvs => .obj (setKV kvs k x)
  | other => other

/-- Non-empty-bag branch of argument normalization (src/unnamed/part_002,
lines 313-317): only explicit `url` is pulled through — step-level first,
then params-level, the params-level write winning. -/
def applyUrlOverride (stepTop merged : List (String × Value)) (t0 : Value) : Value :=
  let t1 := if jsTruthy (lookupKV stepTop "url") then
      jsSetProp t0 "url" ((lookupKV stepTop "url").getD .null) else t0
  if jsTruthy (lookupKV merged "url") then
      jsSetProp t1 "url" ((lookupKV merged "url").getD .null) else t1

/-- Argument normalization applied to a bag (the code applies the same
empty/non-empty split whether the bag came from the chain or from
inference). -/
def normalizeArgs (stepTop merged : List (String × Value)) (t : Value) : Value :=
  if jsKeysEmpty t then buildFromScalars stepTop merged t
  else applyUrlOverride stepTop merged t

/-- Full `CALL_TOOL` resolution: tool name (explicit chain, else shape
inference, else the `call-tool-missing-name` failure) plus normalized
argument bag.  Mirrors src/unnamed/part_002, lines 221-317. -/
def resolveCallTool (stepTop : List (String × Value)) (params : Option Value) :
    Except String (Value × Value) :=
  let merged := mergedParamsOf params
  match resolveToolName stepTop merged with
  | some nameV =>
      .ok (nameV, normalizeArgs stepTop merged (argsChain stepTop merged))
  | none =>
      match inferTool merged with
      | some (n, args) => .ok (.str n, normalizeArgs stepTop merged (.obj args))
      | none => .error "call-tool-missing-name"

/-- External collaborators of `executePlan`: bridge connectivity, the
`remoteMcp.callTool` endpoint (which may reject with an error message),
the local `mcp.handleAction` backend (whose promise never rejects — it
converts every internal failure into a result object), and the
`chrome.tabs` data backing `buildLocalPagesSummary`/`tabContext`. -/
structure Env where
  connected : Bool
  bridgeCall : Value → Value → Except String Value
  localAction : Value → Value
  pagesSummary : Option String := none
  tabUrl : Option String := none

/-- The `extract` helper of the dispatch block (src/unnamed/part_002,
line 343): `toolArgs[k] !== undefined ? toolArgs[k] : step[k] ?? params[k]`. -/
def extract (toolArgs : Value) (stepTop merged : List (String × Value)) (k : String) :
    Option Value :=
  match getKey toolArgs k with
  | some v => some v
  | none =>
      match lookupKV stepTop k with
      | some .null => lookupKV merged k
      | some v => some v
      | none => lookupKV merged k

/-- Build the object passed to `mcp.handleAction` for a downgraded local
action: `{ type, <fields>, tabId }` (a field whose value is `undefined`
is dropped, matching how every consumer reads it). -/
def mkActionObj (ty : String) (fields : List (String × Option Value))
    (tabId : Option Nat) : Value :=
  .obj ([("type", Value.str ty)]
    ++ fields.filterMap (fun kv => kv.2.map fun x => (kv.1, x))
    ++ (match tabId with
        | some t => [("tabId", Value.num (Int.ofNat t))]
        | none => []))

/-- Dispatch of a resolved tool call (src/unnamed/part_002, lines
339-418): classify by name into pages / extension / opaque tools, apply
the safety rules, and route to the local backend or the bridge. -/
def dispatchResolved (env : Env) (tabId : Option Nat)
    (stepTop merged : List (String × Value)) (nameV toolArgs : Value) :
    Except String Value :=
  let lname := strToLower (jsToString nameV)
  let ext := fun (k : String) => extract toolArgs stepTop merged k
  if strStartsWith lname "pages_" || lname = "new_page" || lname = "navigate_page"
      || lname = "list_pages" || lname = "select_page" then
    if lname = "new_page" then
      let url := ext "url"
      let forceNew := jsTruthy (ext "forceNew") || jsTruthy (ext "force_new")
      if !jsTruthy url then .error "blocked-new-page-without-url"
      else if forceNew then
        if !env.connected then .error "blocked-new-page-force-new-bridge-off"
        else env.bridgeCall (.str "new_page") toolArgs
      else .ok (env.localAction (mkActionObj "NAVIGATE" [("url", url)] tabId))
    else if lname = "navigate_page" || lname = "pages_navigate"
        || lname = "pages_navigate_page" then
      let url := ext "url"
      if !jsTruthy url then .error "navigate-missing-url"
      else .ok (env.localAction (mkActionObj "NAVIGATE" [("url", url)] tabId))
    else if lname = "list_pages" then
      let summaryText := match env.pagesSummary with
        | some s => s
        | none => "# list_pages response\n## Pages\n0: "
            ++ (env.tabUrl.getD "about:blank") ++ " [selected]"
      .ok (.obj [("content", .arr [.obj [("type", .str "text"),
        ("text", .str summaryText)]])])
    else if lname = "select_page" || lname = "extension_select_page" then
      let url := jsCoalesce (ext "url") (jsCoalesce (ext "pageUrl") (ext "page"))
      if !jsTruthy url then .error "select-page-missing-url"
      else .ok (env.localAction (mkActionObj "NAVIGATE" [("url", url)] tabId))
    else
      if !env.connected then .error "mcp-bridge-not-connected"
      else env.bridgeCall nameV toolArgs
  else if strStartsWith lname "extension_" then
    if strIncludes lname "click" && jsTruthy (ext "selector") then
      .ok (env.localAction (mkActionObj "CLICK" [("selector", ext "selector")] tabId))
    else if strIncludes lname "fill" && jsTruthy (ext "selector") then
      .ok (env.localAction (mkActionObj "FILL"
        [("selector", ext "selector"),
         ("value", jsCoalesce (ext "value") (jsCoalesce (ext "text") (ext "v")))] tabId))
    else if strIncludes lname "evaluate" && jsTruthy (ext "code") then
      .ok (env.localAction (mkActionObj "EVALUATE_SCRIPT" [("code", ext "code")] tabId))
    else if strIncludes lname "select_page" then
      let url := jsCoalesce (ext "url") (jsCoalesce (ext "pageUrl") (ext "page"))
      if !jsTruthy url then .error "select-page-missing-url"
      else .ok (env.localAction (mkActionObj "NAVIGATE" [("url", url)] tabId))
    else
      if !env.connected then .error "mcp-bridge-not-connected"
      else env.bridgeCall nameV toolArgs
  else
    if !env.connected then .error "mcp-bridge-not-connected"
    else env.bridgeCall nameV toolArgs

/-- Error-shaped-result conversion applied to a `CALL_TOOL` dispatch
result (src/unnamed/part_002, lines 419-426): `isError` flag or
`success === false` becomes a thrown failure carrying the most specific
message (content text, else `error`, else `message`, else the generic
fallback). -/
def checkToolResult (v : Value) : Except String Value :=
  let isFalseSuccess := match getKey v "success" with
    | some (.bool false) => true
    | _ => false
  if jsTruthy (some v) && (jsTruthy (getKey v "isError") || isFalseSuccess) then
    let msgFromContent := match getKey v "content" with
      | some (.arr parts) =>
          match parts.find? (fun p => match getKey p "text" with
            | some (.str _) => true
            | _ => false) with
          | some p => getKey p "text"
          | none => none
      | _ => none
    let msgV := firstTruthyO [msgFromContent, getKey v "error", getKey v "message"]
    .error (match msgV with
      | some m => jsToString m
      | none => "CALL_TOOL failed")
  else .ok v

/-- One `CALL_TOOL` step end to end: resolve, dispatch, convert
error-shaped results. -/
def execCallTool (env : Env) (tabId : Option Nat)
    (stepTop : List (String × Value)) (params : Option Value) :
    Except String Value :=
  match resolveCallTool stepTop params with
  | .error e => .error e
  | .ok nv =>
      match dispatchResolved env tabId stepTop (mergedParamsOf params) nv.1 nv.2 with
      | .error e => .error e
      | .ok r => checkToolResult r

/-- One entry of the `results` array accumulated by `executePlan`. -/
structure ExecutionResult where
  success : Bool
  result : Option Value := none
  error : Option String := none

/-- One iteration of the `executePlan` loop body: a `CALL_TOOL` step may
fail (any thrown error is caught into `{success:false, error}`); any other
step is passed to `mcp.handleAction` as `{...params, type, tabId}`, whose
promise always resolves, so the step is recorded as a success. -/
def execStep (env : Env) (tabId : Option Nat) (step : PlanStep) : ExecutionResult :=
  if step.type = "CALL_TOOL" then
    match execCallTool env tabId step.top step.params with
    | .ok v => ⟨true, some v, none⟩
    | .error e => ⟨false, none, some e⟩
  else
    let base := setKV (mergedParamsOf step.params) "type" (.str step.type)
    let action := match tabId with
      | some t => Value.obj (setKV base "tabId" (.num (Int.ofNat t)))
      | none => Value.obj (eraseKV base "tabId")
    ⟨true, some (env.localAction action), none⟩

/-- The `executePlan` loop (src/unnamed/part_002, lines 208-449):
sequential, appending one `ExecutionResult` per attempted step and
breaking out of the loop at the first failure. -/
def executePlan (env : Env) (tabId : Option Nat) : List PlanStep → List ExecutionResult
  | [] => []
  | step :: rest =>
      let r := execStep env tabId step
      if r.success then r :: executePlan env tabId rest else [r]

/-! Bridge client model (src/chrome-extension/src/lib/mcp-bridge.ts).

The `MCPBridge` instance state is `BridgeSt`; mutating methods become
state transformers that additionally return the ordered list of observer
callbacks they fire (`TdEvent`) or the outcomes they deliver to pending
callers (`Delivery`). -/

/-- `MCPBridgeStatus`. -/
inductive MCPStatus where
  | connecting
  | connected
  | disconnected
deriving DecidableEq, Repr

/-- Lifecycle of a constructed WebSocket, as far as the class observes it:
just created (readyState CONNECTING) or open. -/
inductive SockState where
  | connectingSock
  | openSock
deriving DecidableEq, Repr

/-- The mutable fields of `MCPBridge`.  `pending` holds the keys of the
pending-request map; `ctorFails` abstracts whether `new WebSocket(url)`
would throw in the current environment. -/
structure BridgeSt where
  url : Option String := none
  status : MCPStatus := .disconnected
  sock : Option SockState := none
  reconnectTimer : Bool := false
  nextId : Nat := 1
  pending : List String := []
  ctorFails : Bool := false
deriving DecidableEq, Repr

/-- Observer-visible callbacks fired synchronously by the bridge, in
order: a status-listener broadcast, or the rejection of one pending call
with an error message. -/
inductive TdEvent where
  | statusBroadcast (s : MCPStatus)
  | rejectCall (id : String) (msg : String)
deriving DecidableEq, Repr

/-- `normalizeUrl` (mcp-bridge.ts, lines 42-48): non-strings become null,
strings are trimmed, and an empty trim becomes null. -/
def normalizeUrl (value : Option String) : Option String :=
  match value with
  | none => none
  | some s => let t := strTrim s; if strEmpty t then none else some t

/-- `updateStatus` (mcp-bridge.ts, lines 213-225): broadcast only on an
actual change. -/
def updateStatusRun (st : BridgeSt) (next : MCPStatus) : BridgeSt × List TdEvent :=
  if st.status = next then (st, [])
  else ({ st with status := next }, [.statusBroadcast next])

/-- The default rejection message used when `teardown` is reached with no
explicit error. -/
def defaultDisconnectMsg : String := "MCP bridge disconnected before response arrived."

/-- `teardown` (mcp-bridge.ts, lines 128-155): drop the socket, move to
`disconnected` (broadcasting the change), then reject every pending call
and clear its timer; finally either clear the reconnect timer (suppressed
or no url) or schedule a reconnect (at most one timer pending). -/
def teardownRun (st : BridgeSt) (errMsg : Option String) (suppressReconnect : Bool) :
    BridgeSt × List TdEvent :=
  let st1 := { st with sock := none }
  let su := updateStatusRun st1 .disconnected
  let msg := errMsg.getD defaultDisconnectMsg
  let rejects := su.1.pending.map fun id => TdEvent.rejectCall id msg
  let st3 := { su.1 with pending := [] }
  if suppressReconnect || st3.url = none then
    ({ st3 with reconnectTimer := false }, su.2 ++ rejects)
  else
    (if st3.reconnectTimer then st3 else { st3 with reconnectTimer := true },
     su.2 ++ rejects)

/-- `connect` (mcp-bridge.ts, lines 93-126): no url means stay
disconnected; an existing socket or an in-progress attempt is a no-op;
otherwise clear the reconnect timer, broadcast `connecting` and construct
the socket (a throwing constructor routes through `teardown`, whose
rejection message is the environment-specific constructor error, here the
default). -/
def connectRun (st : BridgeSt) : BridgeSt × List TdEvent :=
  match st.url with
  | none => updateStatusRun st .disconnected
  | some _ =>
      if st.sock.isSome || st.status = .connecting then (st, [])
      else
        let st1 := { st with reconnectTimer := false }
        let su := updateStatusRun st1 .connecting
        if su.1.ctorFails then
          let td := teardownRun su.1 none false
          (td.1, su.2 ++ td.2)
        else
          ({ su.1 with sock := some .connectingSock }, su.2)

/-- `setUrl` (mcp-bridge.ts, lines 66-87). -/
def setUrlRun (st : BridgeSt) (next : Option String) : BridgeSt × List TdEvent :=
  let normalized := normalizeUrl next
  if st.url = normalized then
    if normalized.isSome && st.sock.isNone then connectRun st
    else if normalized.isNone then
      teardownRun st (some "MCP bridge disabled by configuration.") true
    else (st, [])
  else
    let st1 := { st with url := normalized }
    if normalized.isNone then
      teardownRun st1 (some "MCP bridge disabled by configuration.") true
    else
      let td := teardownRun st1 (some "Reconfiguring MCP bridge endpoint.") true
      let cn := connectRun td.1
      (cn.1, td.2 ++ cn.2)

/-- `getUrl`. -/
def getUrl (st : BridgeSt) : Option String := st.url

/-- Immediate outcome of a `callTool` invocation: a synchronous throw, an
immediately rejected promise (send failure), or a pending entry awaiting
a later frame / timer. -/
inductive CallOutcome where
  | thrown (msg : String)
  | rejectedNow (msg : String)
  | inFlight (id : String)
deriving DecidableEq, Repr

/-- `callTool` + `sendRequest` (mcp-bridge.ts, lines 262-300): fail fast
unless `connected` with an open socket; otherwise allocate the next id,
insert the pending entry (with its timer) and attempt the send — a
transport-level send failure removes the entry, cancels the timer and
rejects just that call.  The returned list holds the JSON-RPC request
frames actually written to the socket. -/
def callToolRun (st : BridgeSt) (name args : Value) (sendOk : Bool)
    (sendErrMsg : String) : CallOutcome × BridgeSt × List Value :=
  if st.status ≠ .connected then (.thrown "mcp-disconnected", st, [])
  else if st.sock ≠ some .openSock then (.thrown "mcp-disconnected", st, [])
  else
    let id := toString st.nextId
    let st1 := { st with nextId := st.nextId + 1 }
    let request := Value.obj
      [("jsonrpc", .str "2.0"), ("id", .str id), ("method", .str "tools/call"),
       ("params", .obj [("name", name), ("arguments", args)])]
    if sendOk then
      (.inFlight id, { st1 with pending := st1.pending ++ [id] }, [request])
    else
      (.rejectedNow sendErrMsg, st1, [])

/-- An outcome delivered to one pending caller. -/
inductive Delivery where
  | resolvedD (id : String) (v : Value)
  | rejectedD (id : String) (msg : String)

/-- The id a delivery settles. -/
def deliveryId : Delivery → String
  | .resolvedD id _ => id
  | .rejectedD id _ => id

/-- Remove a key from the pending map. -/
def removeId (l : List String) (id : String) : List String :=
  l.filter fun x => x != id

/-- The request-correlation key of an incoming frame
(`typeof data?.id === 'string' || 'number'`, then `String(data.id)`). -/
def jsIdKey (data : Value) : Option String :=
  match getKey data "id" with
  | some (.str s) => some s
  | some (.num n) => some (toString n)
  | _ => none

/-- Resolution/rejection delivered for a recognized pending id
(`handleMessage`, mcp-bridge.ts, lines 193-200): a present, truthy
`error` rejects with its message (default when absent/null), else a
present `result` resolves with it, else resolve with the empty value
(`undefined`, modelled as null — unreachable from JSON frames). -/
def frameDelivery (key : String) (data : Value) : Delivery :=
  match getKey data "error" with
  | some e =>
      if jsTruthy (some e) then
        .rejectedD key (match getKey e "message" with
          | none => "Unknown MCP error"
          | some .null => "Unknown MCP error"
          | some m => jsToString m)
      else
        match getKey data "result" with
        | some r => .resolvedD key r
        | none => .resolvedD key .null
  | none =>
      match getKey data "result" with
      | some r => .resolvedD key r
      | none => .resolvedD key .null

/-- `handleMessage` (mcp-bridge.ts, lines 174-211) for an already-parsed
frame: an id-bearing frame settles its pending call if one is tracked and
is silently ignored otherwise; an id-less frame is a notification (fanned
out to notification listeners, delivering nothing to pending calls).
Non-parseable frames are dropped before this point. -/
def handleMessageRun (st : BridgeSt) (data : Value) : BridgeSt × List Delivery :=
  match jsIdKey data with
  | none => (st, [])
  | some key =>
      if key ∈ st.pending then
        ({ st with pending := removeId st.pending key }, [frameDelivery key data])
      else (st, [])

/-- Asynchronous stimuli that settle pending calls. -/
inductive BridgeEvent where
  | timerFire (id : String)
  | frame (data : Value)
  | socketClosed

/-- One event step.  The per-call timeout callback (mcp-bridge.ts, lines
286-289) deletes the entry and rejects with `mcp-timeout`; every other
removal of a pending entry also cancels its timer (`clearTimeout` at
lines 143-145, 190-192, 296-297), so a timer whose entry is gone has been
cleared and can no longer fire — `timerFire` is therefore a no-op when
the id is not pending.  `socketClosed` runs the `teardown` path. -/
def stepBridge (st : BridgeSt) (ev : BridgeEvent) : BridgeSt × List Delivery :=
  match ev with
  | .timerFire id =>
      if id ∈ st.pending then
        ({ st with pending := removeId st.pending id }, [.rejectedD id "mcp-timeout"])
      else (st, [])
  | .frame data => handleMessageRun st data
  | .socketClosed =>
      let td := teardownRun st none false
      (td.1, td.2.filterMap fun e => match e with
        | .rejectCall id msg => some (.rejectedD id msg)
        | _ => none)

/-- Run a sequence of events, accumulating all deliveries in order. -/
def runBridge (st : BridgeSt) : List BridgeEvent → BridgeSt × List Delivery
  | [] => (st, [])
  | ev :: evs =>
      let p1 := stepBridge st ev
      let p2 := runBridge p1.1 evs
      (p2.1, p1.2 ++ p2.2)

/-- Number of outcomes delivered to the call with the given id. -/
def countFor (id : String) (ds : List Delivery) : Nat :=
  (ds.filter fun d => deliveryId d == id).length

/-- Does a callback trace reject pending calls only before (never after)
the `disconnected` broadcast?  This is the ordering the specification
asserts for the teardown path. -/
def noRejectAfterDisconnectB : List TdEvent → Bool
  | [] => true
  | TdEvent.statusBroadcast MCPStatus.disconnected :: rest =>
      rest.all fun e => match e with
        | TdEvent.rejectCall _ _ => false
        | _ => true
  | _ :: rest => noRejectAfterDisconnectB rest

/-! Concrete instances used by counterexamples and witnesses. -/

/-- A disconnected-bridge environment whose local backend always
succeeds. -/
def cexEnv : Env :=
  { connected := false
    bridgeCall := fun _ _ => .ok .null
    localAction := fun _ => .obj [("success", .bool true)] }

/-- A one-step plan whose only step fails
(`CALL_TOOL` with empty params: no name, nothing to infer). -/
def cexPlan1 : List PlanStep :=
  [{ type := "CALL_TOOL", params := some (.obj []) }]

/-- A two-step plan failing at the first step. -/
def cexPlan2 : List PlanStep :=
  [{ type := "CALL_TOOL", params := some (.obj []) },
   { type := "NAVIGATE", params := some (.obj [("url", .str "https://example.com")]) }]

/-- A connected bridge with one pending call. -/
def stConnPending : BridgeSt :=
  { url := some "ws://127.0.0.1:8080", status := .connected,
    sock := some .openSock, nextId := 2, pending := ["1"] }

/-- A disconnected bridge. -/
def stDisc : BridgeSt :=
  { url := some "ws://127.0.0.1:8080", status := .disconnected }

/-- A bridge still connecting. -/
def stConn0 : BridgeSt :=
  { url := some "ws://127.0.0.1:8080", status := .connecting,
    sock := some .connectingSock }

/-- Step top level carrying an explicit tool name and a scalar `selector`. -/
def cexStepTop5 : List (String × Value) :=
  [("tool", .str "sometool"), ("selector", .str "#new")]

/-- Params carrying a non-empty nested argument bag with its own
`selector`. -/
def cexParams5 : Value :=
  .obj [("arguments", .obj [("selector", .str "#old"), ("foo", .num 1)])]

/-! Helper lemmas. -/

theorem lookupKV_setKV_self (kvs : List (String × Value)) (k : String) (v : Value) :
    lookupKV (setKV kvs k v) k = some v := by
  induction kvs with
  | nil => simp [setKV, lookupKV]
  | cons hd tl ih =>
      obtain ⟨k', v'⟩ := hd
      by_cases h : k' = k
      · simp [setKV, h, lookupKV]
      · simp [setKV, h, lookupKV, ih]

theorem lookupKV_setKV_ne (kvs : List (String × Value)) (k k' : String) (v : Value)
    (h : k' ≠ k) : lookupKV (setKV kvs k v) k' = lookupKV kvs k' := by
  have hk : ¬ k = k' := fun hh => h hh.symm
  induction kvs with
  | nil => simp [setKV, lookupKV, hk]
  | cons hd tl ih =>
      obtain ⟨k0, v0⟩ := hd
      by_cases h0 : k0 = k
      · subst h0
        simp [setKV, lookupKV, hk]
      · by_cases h1 : k0 = k'
        · simp [setKV, h0, lookupKV, h1, h]
        · simp [setKV, h0, lookupKV, h1, ih]

theorem jsTruthy_isSome {o : Option Value} (h : jsTruthy o = true) :
    o = some (o.getD .null) := by
  cases o with
  | none => simp [jsTruthy] at h
  | some v => rfl

/-- Reduction of `dispatchResolved` on a resolved `new_page` name. -/
theorem dispatchResolved_new_page_eq (env : Env) (tabId : Option Nat)
    (stepTop merged : List (String × Value)) (nameV toolArgs : Value)
    (hname : strToLower (jsToString nameV) = "new_page") :
    dispatchResolved env tabId stepTop merged nameV toolArgs =
      (if !jsTruthy (extract toolArgs stepTop merged "url") then
        Except.error "blocked-new-page-without-url"
      else if jsTruthy (extract toolArgs stepTop merged "forceNew")
          || jsTruthy (extract toolArgs stepTop merged "force_new") then
        if !env.connected then Except.error "blocked-new-page-force-new-bridge-off"
        else env.bridgeCall (Value.str "new_page") toolArgs
      else Except.ok (env.localAction (mkActionObj "NAVIGATE"
        [("url", extract toolArgs stepTop merged "url")] tabId))) := by
  unfold dispatchResolved
  rw [hname]
  exact rfl

/-! C9 -/

/-- C9 (confirmed): a `CALL_TOOL` step with an empty params object and no
top-level tool-name field resolves to no name, infers nothing, and fails
with `call-tool-missing-name`. -/
theorem empty_params_missing_name (env : Env) (tabId : Option Nat)
    (stepTop : List (String × Value))
    (h1 : lookupKV stepTop "tool" = none)
    (h2 : lookupKV stepTop "toolName" = none)
    (h3 : lookupKV stepTop "tool_name" = none) :
    execStep env tabId { type := "CALL_TOOL", params := some (.obj []), top := stepTop }
      = ⟨false, none, some "call-tool-missing-name"⟩ := by
  simp [execStep, execCallTool, resolveCallTool, mergedParamsOf, resolveToolName,
        firstTruthyO, lookupKV, inferTool, jsTruthy, h1, h2, h3]

/-- Witness for C9 at a concrete step. -/
theorem empty_params_missing_name_witness :
    execStep cexEnv none { type := "CALL_TOOL", params := some (.obj []), top := [] }
      = ⟨false, none, some "call-tool-missing-name"⟩ :=
  empty_params_missing_name cexEnv none [] rfl rfl rfl

/-! C4 -/

/-- C4 (confirmed): a resolved `new_page` call with no `url` argument is
refused with `blocked-new-page-without-url`, for every bridge
connectivity state and regardless of any force flag in the arguments. -/
theorem new_page_without_url_blocked (env : Env) (tabId : Option Nat)
    (stepTop merged : List (String × Value)) (nameV toolArgs : Value)
    (hname : strToLower (jsToString nameV) = "new_page")
    (hurl : extract toolArgs stepTop merged "url" = none) :
    dispatchResolved env tabId stepTop merged nameV toolArgs
      = .error "blocked-new-page-without-url" := by
  rw [dispatchResolved_new_page_eq env tabId stepTop merged nameV toolArgs hname, hurl]
  simp [jsTruthy]

/-- Witness for C4: no url, bridge connected, forceNew set. -/
theorem new_page_without_url_blocked_witness :
    dispatchResolved { cexEnv with connected := true } (some 3) [] []
        (.str "new_page") (.obj [("forceNew", .bool true)])
      = .error "blocked-new-page-without-url" :=
  new_page_without_url_blocked { cexEnv with connected := true } (some 3) [] []
    (.str "new_page") (.obj [("forceNew", .bool true)]) rfl rfl

/-! C3 -/

/-- C3 (confirmed): a resolved `new_page` call with a (truthy) `url`
argument: with forced-new requested it fails with
`blocked-new-page-force-new-bridge-off` when the bridge is not connected
and is forwarded to the bridge as `new_page` when it is; without
forced-new it is downgraded to a local same-tab NAVIGATE of the
active/target tab. -/
theorem new_page_force_dispatch (env : Env) (tabId : Option Nat)
    (stepTop merged : List (String × Value)) (nameV toolArgs : Value)
    (hname : strToLower (jsToString nameV) = "new_page")
    (hurl : jsTruthy (extract toolArgs stepTop merged "url") = true) :
    ((jsTruthy (extract toolArgs stepTop merged "forceNew") = true
        ∨ jsTruthy (extract toolArgs stepTop merged "force_new") = true) →
      (env.connected = false →
        dispatchResolved env tabId stepTop merged nameV toolArgs
          = .error "blocked-new-page-force-new-bridge-off")
      ∧ (env.connected = true →
        dispatchResolved env tabId stepTop merged nameV toolArgs
          = env.bridgeCall (.str "new_page") toolArgs))
    ∧ (jsTruthy (extract toolArgs stepTop merged "forceNew") = false →
       jsTruthy (extract toolArgs stepTop merged "force_new") = false →
        dispatchResolved env tabId stepTop merged nameV toolArgs
          = .ok (env.localAction (mkActionObj "NAVIGATE"
              [("url", extract toolArgs stepTop merged "url")] tabId))) := by
  rw [dispatchResolved_new_page_eq env tabId stepTop merged nameV toolArgs hname]
  constructor
  · intro hforce
    constructor
    · intro hconn
      rcases hforce with hf | hf <;> simp [hurl, hf, hconn]
    · intro hconn
      rcases hforce with hf | hf <;> simp [hurl, hf, hconn]
  · intro hf1 hf2
    simp [hurl, hf1, hf2]

/-- Witness for C3: concrete force-new call while the bridge is off. -/
theorem new_page_force_dispatch_witness :
    dispatchResolved cexEnv (some 3) [] [] (.str "new_page")
        (.obj [("url", .str "https://x"), ("forceNew", .bool true)])
      = .error "blocked-new-page-force-new-bridge-off" :=
  ((new_page_force_dispatch cexEnv (some 3) [] [] (.str "new_page")
      (.obj [("url", .str "https://x"), ("forceNew", .bool true)])
      rfl rfl).1 (Or.inl rfl)).1 rfl

/-! C7 -/

/-- C7 (counterexample to the stated error name): a `callTool` issued on a
disconnected bridge throws immediately with message `mcp-disconnected`,
which is not the literal `disconnected` the claim states. -/
theorem callTool_disconnected_msg_cex :
    callToolRun stDisc (.str "browser_snapshot") (.obj []) true "send-failed"
      = (.thrown "mcp-disconnected", stDisc, [])
    ∧ ("mcp-disconnected" : String) ≠ "disconnected" := by
  exact ⟨rfl, by decide⟩

/-- C7 (corrected): a `callTool` issued while the bridge is not in the
`connected` state throws immediately with `mcp-disconnected`, leaves the
state (in particular the pending map) untouched, and writes nothing to
the socket. -/
theorem callTool_disconnected_amended (st : BridgeSt) (name args : Value)
    (sendOk : Bool) (sendErrMsg : String) (h : st.status ≠ .connected) :
    callToolRun st name args sendOk sendErrMsg = (.thrown "mcp-disconnected", st, []) := by
  simp [callToolRun, h]

/-- Witness for corrected C7 at a connecting bridge. -/
theorem callTool_disconnected_amended_witness :
    callToolRun stConn0 (.str "list_pages") (.obj []) true "send-failed"
      = (.thrown "mcp-disconnected", stConn0, []) :=
  callTool_disconnected_amended stConn0 (.str "list_pages") (.obj []) true
    "send-failed" (by decide)

/-! C6 -/

/-- C6 (confirmed): when no tool name is present in any encoding the
resolver infers from parameter shape in priority order — selector+value
gives the fill tool, selector alone the click tool, then url the navigate
tool, then code the evaluate-script tool, then a non-empty string `text`
the fill tool with selector defaulting to `input`; and the concrete input
`{selector:"#a", value:"x"}` resolves to the fill tool with exactly those
arguments. -/
theorem inferTool_priority (merged : List (String × Value)) :
    (∀ sel v, lookupKV merged "selector" = some sel → jsTruthy (some sel) = true →
      lookupKV merged "value" = some v →
      inferTool merged = some ("extension_fill_selector",
        [("selector", sel), ("value", v)]))
    ∧ (∀ sel, lookupKV merged "selector" = some sel → jsTruthy (some sel) = true →
      lookupKV merged "value" = none →
      inferTool merged = some ("extension_click_selector", [("selector", sel)]))
    ∧ (∀ u, jsTruthy (lookupKV merged "selector") = false →
      lookupKV merged "url" = some u → jsTruthy (some u) = true →
      inferTool merged = some ("navigate_page",
        [("type", .str "url"), ("url", u)]))
    ∧ (∀ c, jsTruthy (lookupKV merged "selector") = false →
      jsTruthy (lookupKV merged "url") = false →
      lookupKV merged "code" = some c → jsTruthy (some c) = true →
      inferTool merged = some ("extension_evaluate_script", [("code", c)]))
    ∧ (∀ t, jsTruthy (lookupKV merged "selector") = false →
      jsTruthy (lookupKV merged "url") = false →
      jsTruthy (lookupKV merged "code") = false →
      lookupKV merged "text" = some (.str t) → strEmpty t = false →
      inferTool merged = some ("extension_fill_selector",
        [("selector", (jsCoalesce (lookupKV merged "selector")
            (some (.str "input"))).getD (.str "input")),
         ("value", .str t)]))
    ∧ resolveCallTool [] (some (.obj [("selector", .str "#a"), ("value", .str "x")]))
        = .ok (.str "extension_fill_selector",
               .obj [("selector", .str "#a"), ("value", .str "x")]) := by
  refine ⟨?_, ?_, ?_, ?_, ?_, ?_⟩
  · intro sel v hsel htr hv
    simp [inferTool, hsel, htr, hv]
  · intro sel hsel htr hv
    simp [inferTool, hsel, htr, hv]
  · intro u hsel hu htr
    simp [inferTool, hsel, hu, htr]
  · intro c hsel hu hc htr
    simp [inferTool, hsel, hu, hc, htr]
  · intro t hsel hu hc ht hne
    simp [inferTool, hsel, hu, hc, ht, hne]
  · exact rfl

/-- Witness for C6: discharging the first inference clause at a concrete
bag. -/
theorem inferTool_priority_witness :
    inferTool [("selector", .str "#a"), ("value", .str "x")]
      = some ("extension_fill_selector",
          [("selector", .str "#a"), ("value", .str "x")]) :=
  (inferTool_priority [("selector", .str "#a"), ("value", .str "x")]).1
    (.str "#a") (.str "x") rfl rfl rfl

/-! C5 -/

/-- C5 (counterexample): with a non-empty nested argument bag, a
top-level `selector` does not override the bag's `selector` — the
resolved arguments keep `#old`, not the step's top-level `#new`. -/
theorem toplevel_scalar_override_cex :
    resolveCallTool cexStepTop5 (some cexParams5)
      = .ok (.str "sometool", .obj [("selector", .str "#old"), ("foo", .num 1)])
    ∧ lookupKV [("selector", .str "#old"), ("foo", .num 1)] "selector"
        ≠ some (.str "#new") := by
  constructor
  · exact rfl
  · simp [lookupKV]

/-- C5 (corrected): when the merged argument bag is non-empty, only the
`url` field is overridden from outside it (step-level first, then
params-level, the params-level write winning); `selector`, `value` and
`code` in the resolved arguments always come from the bag itself. -/
theorem normalizeArgs_nonempty_amended (stepTop merged : List (String × Value))
    (bag : List (String × Value)) (hne : bag ≠ []) :
    (∀ k, (k = "selector" ∨ k = "value" ∨ k = "code") →
      getKey (normalizeArgs stepTop merged (.obj bag)) k = lookupKV bag k)
    ∧ (jsTruthy (lookupKV merged "url") = true →
        getKey (normalizeArgs stepTop merged (.obj bag)) "url" = lookupKV merged "url")
    ∧ (jsTruthy (lookupKV merged "url") = false →
       jsTruthy (lookupKV stepTop "url") = true →
        getKey (normalizeArgs stepTop merged (.obj bag)) "url" = lookupKV stepTop "url")
    ∧ (jsTruthy (lookupKV merged "url") = false →
       jsTruthy (lookupKV stepTop "url") = false →
        normalizeArgs stepTop merged (.obj bag) = .obj bag) := by
  have hbag : jsKeysEmpty (.obj bag) = false := by
    simp [jsKeysEmpty, hne]
  refine ⟨?_, ?_, ?_, ?_⟩
  · intro k hk
    have hku : k ≠ "url" := by
      rcases hk with h | h | h <;> subst h <;> decide
    by_cases hm : jsTruthy (lookupKV merged "url") = true
      <;> by_cases hs : jsTruthy (lookupKV stepTop "url") = true
      <;> simp [normalizeArgs, hbag, applyUrlOverride, hm, hs, jsSetProp, getKey,
                lookupKV_setKV_ne _ _ _ _ hku]
  · intro hm
    rw [jsTruthy_isSome hm]
    by_cases hs : jsTruthy (lookupKV stepTop "url") = true
      <;> simp [normalizeArgs, hbag, applyUrlOverride, hm, hs, jsSetProp, getKey,
                lookupKV_setKV_self]
  · intro hm hs
    rw [jsTruthy_isSome hs]
    simp [normalizeArgs, hbag, applyUrlOverride, hm, hs, jsSetProp, getKey,
          lookupKV_setKV_self]
  · intro hm hs
    simp [normalizeArgs, hbag, applyUrlOverride, hm, hs]

/-- Witness for corrected C5 at a concrete non-empty bag with a
params-level url override. -/
theorem normalizeArgs_nonempty_amended_witness :
    getKey (normalizeArgs cexStepTop5 [("url", .str "https://p")]
        (.obj [("selector", .str "#old"), ("url", .str "https://bag")])) "selector"
      = some (.str "#old")
    ∧ getKey (normalizeArgs cexStepTop5 [("url", .str "https://p")]
        (.obj [("selector", .str "#old"), ("url", .str "https://bag")])) "url"
      = some (.str "https://p") :=
  ⟨(normalizeArgs_nonempty_amended cexStepTop5 [("url", .str "https://p")]
      [("selector", .str "#old"), ("url", .str "https://bag")] (by simp)).1
      "selector" (Or.inl rfl),
   (normalizeArgs_nonempty_amended cexStepTop5 [("url", .str "https://p")]
      [("selector", .str "#old"), ("url", .str "https://bag")] (by simp)).2.1 rfl⟩

/-! C2 -/

theorem teardownRun_trace (st : BridgeSt) (errMsg : Option String) (sup : Bool) :
    (teardownRun st errMsg sup).2
      = (if st.status = .disconnected then ([] : List TdEvent)
         else [TdEvent.statusBroadcast .disconnected])
        ++ st.pending.map (fun id =>
            TdEvent.rejectCall id (errMsg.getD defaultDisconnectMsg)) := by
  unfold teardownRun updateStatusRun
  by_cases h : st.status = .disconnected <;> simp [h] <;> split <;> simp

theorem teardownRun_pending (st : BridgeSt) (errMsg : Option String) (sup : Bool) :
    (teardownRun st errMsg sup).1.pending = [] := by
  unfold teardownRun updateStatusRun
  by_cases h : st.status = .disconnected <;> simp [h] <;> split <;>
    (try split) <;> simp

theorem teardownRun_suppress_state (st : BridgeSt) (errMsg : Option String) :
    (teardownRun st errMsg true).1
      = { st with
          sock := none, status := .disconnected, pending := [], reconnectTimer := false } := by
  unfold teardownRun updateStatusRun
  by_cases h : st.status = .disconnected <;> simp [h]

/-- C2 (counterexample): tearing down a connected bridge with one pending
call broadcasts the `disconnected` status change first and rejects the
pending call only afterwards, so the callback trace violates the claimed
reject-before-broadcast ordering. -/
theorem teardown_rejects_before_broadcast_cex :
    (teardownRun stConnPending none false).2
      = [TdEvent.statusBroadcast .disconnected,
         TdEvent.rejectCall "1" defaultDisconnectMsg]
    ∧ noRejectAfterDisconnectB (teardownRun stConnPending none false).2 = false := by
  constructor
  · rfl
  · rfl

/-- C2 (corrected): on a transition to `disconnected` the teardown path
first broadcasts the state change to status observers and then rejects
every pending call, leaving the pending map empty when it returns — so an
observer can momentarily see `disconnected` with calls still unsettled,
but no pending entry survives the teardown. -/
theorem teardown_broadcast_then_rejects (st : BridgeSt) (errMsg : Option String)
    (sup : Bool) (h : st.status ≠ .disconnected) :
    (teardownRun st errMsg sup).2
      = TdEvent.statusBroadcast .disconnected ::
          st.pending.map (fun id =>
            TdEvent.rejectCall id (errMsg.getD defaultDisconnectMsg))
    ∧ (teardownRun st errMsg sup).1.pending = [] := by
  refine ⟨?_, teardownRun_pending st errMsg sup⟩
  rw [teardownRun_trace st errMsg sup]
  simp [h]

/-- Witness for corrected C2 at the connected one-pending-call bridge. -/
theorem teardown_broadcast_then_rejects_witness :
    (teardownRun stConnPending none false).1.pending = [] :=
  (teardown_broadcast_then_rejects stConnPending none false (by decide)).2

/-! C10 -/

/-- C10 (confirmed): configuring the bridge with a whitespace-only (or
empty) URL string behaves exactly like configuring it with null — the url
normalizes to null, the live connection is torn down with every pending
call rejected, reconnection is suppressed (no reconnect timer survives),
and `getUrl` afterwards returns null. -/
theorem setUrl_blank_equiv_null (st : BridgeSt) (s : String) (h : strTrim s = "") :
    setUrlRun st (some s) = setUrlRun st none
    ∧ (setUrlRun st (some s)).1.url = none
    ∧ (setUrlRun st (some s)).1.sock = none
    ∧ (setUrlRun st (some s)).1.pending = []
    ∧ (setUrlRun st (some s)).1.reconnectTimer = false
    ∧ getUrl (setUrlRun st (some s)).1 = none
    ∧ ∀ id ∈ st.pending,
        TdEvent.rejectCall id "MCP bridge disabled by configuration."
          ∈ (setUrlRun st (some s)).2 := by
  have hn : normalizeUrl (some s) = none := by
    simp [normalizeUrl, h, strEmpty]
  by_cases hu : st.url = none
  · have hred : setUrlRun st (some s)
        = teardownRun st (some "MCP bridge disabled by configuration.") true := by
      simp only [setUrlRun, hn]
      simp [hu]
    have hred0 : setUrlRun st none
        = teardownRun st (some "MCP bridge disabled by configuration.") true := by
      simp only [setUrlRun, normalizeUrl]
      simp [hu]
    refine ⟨hred.trans hred0.symm, ?_, ?_, ?_, ?_, ?_, ?_⟩
    · rw [hred, teardownRun_suppress_state]; exact hu
    · rw [hred, teardownRun_suppress_state]
    · rw [hred, teardownRun_suppress_state]
    · rw [hred, teardownRun_suppress_state]
    · unfold getUrl; rw [hred, teardownRun_suppress_state]; exact hu
    · intro id hid
      rw [hred, teardownRun_trace]
      refine List.mem_append.mpr (Or.inr ?_)
      exact List.mem_map.mpr ⟨id, hid, rfl⟩
  · have hred : setUrlRun st (some s)
        = teardownRun { st with url := none }
            (some "MCP bridge disabled by configuration.") true := by
      simp only [setUrlRun, hn]
      simp [hu]
    have hred0 : setUrlRun st none
        = teardownRun { st with url := none }
            (some "MCP bridge disabled by configuration.") true := by
      simp only [setUrlRun, normalizeUrl]
      simp [hu]
    refine ⟨hred.trans hred0.symm, ?_, ?_, ?_, ?_, ?_, ?_⟩
    · rw [hred, teardownRun_suppress_state]
    · rw [hred, teardownRun_suppress_state]
    · rw [hred, teardownRun_suppress_state]
    · rw [hred, teardownRun_suppress_state]
    · unfold getUrl; rw [hred, teardownRun_suppress_state]
    · intro id hid
      rw [hred, teardownRun_trace]
      refine List.mem_append.mpr (Or.inr ?_)
      exact List.mem_map.mpr ⟨id, hid, rfl⟩

/-- Witness for C10: a whitespace-only url on a live connected bridge. -/
theorem setUrl_blank_equiv_null_witness :
    setUrlRun stConnPending (some "   ") = setUrlRun stConnPending none
    ∧ (setUrlRun stConnPending (some "   ")).1.url = none :=
  ⟨(setUrl_blank_equiv_null stConnPending "   " (by decide)).1,
   (setUrl_blank_equiv_null stConnPending "   " (by decide)).2.1⟩

/-! C8 -/

theorem mem_removeId {l : List String} {id x : String} :
    x ∈ removeId l id ↔ x ∈ l ∧ x ≠ id := by
  simp [removeId, List.mem_filter, bne_iff_ne]

theorem nodup_removeId {l : List String} (h : l.Nodup) (id : String) :
    (removeId l id).Nodup :=
  h.filter _

theorem deliveryId_frameDelivery (key : String) (data : Value) :
    deliveryId (frameDelivery key data) = key := by
  unfold frameDelivery
  repeat' split
  all_goals rfl

theorem countFor_append (id : String) (a b : List Delivery) :
    countFor id (a ++ b) = countFor id a + countFor id b := by
  simp [countFor, List.filter_append]

theorem countFor_single (id : String) (d : Delivery) :
    countFor id [d] = if deliveryId d == id then 1 else 0 := by
  simp only [countFor, List.filter_cons, List.filter_nil]
  split <;> simp

theorem countFor_rejectAll (id : String) (l : List String) (msg : String)
    (h : l.Nodup) :
    countFor id (l.map fun i => Delivery.rejectedD i msg)
      = if id ∈ l then 1 else 0 := by
  induction l with
  | nil => simp [countFor]
  | cons a l ih =>
      rcases List.nodup_cons.mp h with ⟨ha, hl⟩
      have hsplit : countFor id ((a :: l).map fun i => Delivery.rejectedD i msg)
          = countFor id [Delivery.rejectedD a msg]
            + countFor id (l.map fun i => Delivery.rejectedD i msg) :=
        countFor_append id [Delivery.rejectedD a msg] _
      rw [hsplit, countFor_single, ih hl]
      by_cases hx : a = id
      · subst hx
        simp [deliveryId, ha]
      · have hbeq : (a == id) = false := beq_eq_false_iff_ne.mpr hx
        simp [deliveryId, hbeq, Ne.symm hx]

theorem filterMap_rejects (msg : String) (l : List String) :
    (l.map fun id => TdEvent.rejectCall id msg).filterMap
      (fun e => match e with
        | TdEvent.rejectCall id msg => some (Delivery.rejectedD id msg)
        | _ => none)
    = l.map fun i => Delivery.rejectedD i msg := by
  induction l with
  | nil => rfl
  | cons a t ih => simp [List.filterMap_cons, List.map_cons, ih]

theorem stepBridge_count (st : BridgeSt) (ev : BridgeEvent) (id : String)
    (hnd : st.pending.Nodup) :
    (stepBridge st ev).1.pending.Nodup
    ∧ countFor id (stepBridge st ev).2
        + (if id ∈ (stepBridge st ev).1.pending then 1 else 0)
      ≤ (if id ∈ st.pending then 1 else 0) := by
  cases ev with
  | timerFire tid =>
      by_cases hmem : tid ∈ st.pending
      · refine ⟨by simp [stepBridge, hmem, nodup_removeId hnd], ?_⟩
        by_cases hx : tid = id
        · subst hx
          have h1 : tid ∉ removeId st.pending tid := by simp [mem_removeId]
          simp [stepBridge, hmem, countFor_single, deliveryId, h1]
        · have h1 : id ∈ removeId st.pending tid ↔ id ∈ st.pending := by
            rw [mem_removeId]
            exact ⟨fun hh => hh.1, fun hh => ⟨hh, fun he => hx he.symm⟩⟩
          have hbeq : (tid == id) = false := beq_eq_false_iff_ne.mpr hx
          simp [stepBridge, hmem, countFor_single, deliveryId, hbeq, h1]
      · simp [stepBridge, hmem, countFor, hnd]
  | frame data =>
      cases hk : jsIdKey data with
      | none => simp [stepBridge, handleMessageRun, hk, countFor, hnd]
      | some key =>
          by_cases hmem : key ∈ st.pending
          · refine ⟨by simp [stepBridge, handleMessageRun, hk, hmem, nodup_removeId hnd], ?_⟩
            by_cases hx : key = id
            · subst hx
              have h1 : key ∉ removeId st.pending key := by simp [mem_removeId]
              simp [stepBridge, handleMessageRun, hk, hmem, countFor_single,
                deliveryId_frameDelivery, h1]
            · have h1 : id ∈ removeId st.pending key ↔ id ∈ st.pending := by
                rw [mem_removeId]
                exact ⟨fun hh => hh.1, fun hh => ⟨hh, fun he => hx he.symm⟩⟩
              have hbeq : (key == id) = false := beq_eq_false_iff_ne.mpr hx
              simp [stepBridge, handleMessageRun, hk, hmem, countFor_single,
                deliveryId_frameDelivery, hbeq, h1]
          · simp [stepBridge, handleMessageRun, hk, hmem, countFor, hnd]
  | socketClosed =>
      have hpend : (teardownRun st none false).1.pending = [] :=
        teardownRun_pending st none false
      have htr := teardownRun_trace st none false
      refine ⟨by simp [stepBridge, hpend], ?_⟩
      have hdel : (stepBridge st .socketClosed).2
          = st.pending.map fun i => Delivery.rejectedD i defaultDisconnectMsg := by
        simp only [stepBridge, htr, Option.getD_none, List.filterMap_append]
        have h1 : (if st.status = MCPStatus.disconnected then ([] : List TdEvent)
            else [TdEvent.statusBroadcast .disconnected]).filterMap
            (fun e => match e with
              | TdEvent.rejectCall id msg => some (Delivery.rejectedD id msg)
              | _ => none) = [] := by
          split <;> rfl
        rw [h1, List.nil_append, filterMap_rejects]
      rw [hdel]
      simp only [stepBridge, hpend]
      simp [countFor_rejectAll id st.pending defaultDisconnectMsg hnd]

theorem countFor_runBridge (id : String) (evs : List BridgeEvent) :
    ∀ (st : BridgeSt), st.pending.Nodup →
      countFor id (runBridge st evs).2 ≤ (if id ∈ st.pending then 1 else 0) := by
  induction evs with
  | nil =>
      intro st _
      simp [runBridge, countFor]
  | cons ev evs ih =>
      intro st h
      obtain ⟨hnd, hle⟩ := stepBridge_count st ev id h
      have h2 := ih (stepBridge st ev).1 hnd
      simp only [runBridge, countFor_append]
      omega

/-- C8 (confirmed): a pending call whose timer fires is rejected with
`mcp-timeout` and its entry removed; a frame carrying an id that is no
longer pending delivers nothing (late responses are ignored); and over
any sequence of timer/frame/disconnect events, a call receives at most
one outcome — no double delivery. -/
theorem bridge_single_outcome :
    (∀ (st : BridgeSt) (id : String), id ∈ st.pending →
      stepBridge st (.timerFire id)
        = ({ st with pending := removeId st.pending id },
           [.rejectedD id "mcp-timeout"]))
    ∧ (∀ (st : BridgeSt) (data : Value) (key : String),
        jsIdKey data = some key → key ∉ st.pending →
        stepBridge st (.frame data) = (st, []))
    ∧ (∀ (st : BridgeSt) (evs : List BridgeEvent) (id : String),
        st.pending.Nodup →
        countFor id (runBridge st evs).2 ≤ (if id ∈ st.pending then 1 else 0)) := by
  refine ⟨?_, ?_, ?_⟩
  · intro st id h
    simp [stepBridge, h]
  · intro st data key hk hmem
    simp [stepBridge, handleMessageRun, hk, hmem]
  · intro st evs id h
    exact countFor_runBridge id evs st h

/-- Witness for C8: the one-pending-call bridge with a fired timer and a
late response for the same id. -/
theorem bridge_single_outcome_witness :
    stepBridge stConnPending (.timerFire "1")
      = ({ stConnPending with pending := removeId stConnPending.pending "1" },
         [.rejectedD "1" "mcp-timeout"])
    ∧ stepBridge { stConnPending with pending := [] }
        (.frame (.obj [("id", .str "1"), ("result", .num 5)]))
      = ({ stConnPending with pending := [] }, [])
    ∧ countFor "1" (runBridge stConnPending
        [.timerFire "1", .frame (.obj [("id", .str "1"), ("result", .num 5)])]).2
      ≤ (if "1" ∈ stConnPending.pending then 1 else 0) :=
  ⟨bridge_single_outcome.1 stConnPending "1" (by decide),
   bridge_single_outcome.2.1 { stConnPending with pending := [] }
     (.obj [("id", .str "1"), ("result", .num 5)]) "1" rfl (by decide),
   bridge_single_outcome.2.2 stConnPending
     [.timerFire "1", .frame (.obj [("id", .str "1"), ("result", .num 5)])] "1"
     (by decide)⟩

/-! C1 -/

/-- C1 (counterexample): a one-step plan whose only step fails yields a
result list of the full plan length, so a failed step does not force the
result sequence to be strictly shorter than the plan — the claimed
equivalence is false. -/
theorem executePlan_len_iff_failed_cex :
    ¬ (((executePlan cexEnv none cexPlan1).length < cexPlan1.length) ↔
       ((executePlan cexEnv none cexPlan1).any fun r => !r.success) = true) := by
  decide

/-- C1 (corrected): the result sequence is at most as long as the plan;
every result before the last reports success (execution halts at the
first failing step, attempting nothing further); if all steps succeeded
the lengths are equal; and a strictly shorter result list implies its
last entry is a failure — but a failure at the plan's final step leaves
the lengths equal, so strict shortness is sufficient, not equivalent, to
the existence of a failed step. -/
theorem executePlan_failfast_amended (env : Env) (tabId : Option Nat)
    (plan : List PlanStep) :
    (executePlan env tabId plan).length ≤ plan.length
    ∧ (∀ i, i + 1 < (executePlan env tabId plan).length →
        ((executePlan env tabId plan).getD i ⟨true, none, none⟩).success = true)
    ∧ ((∀ r ∈ executePlan env tabId plan, r.success = true) →
        (executePlan env tabId plan).length = plan.length)
    ∧ ((executePlan env tabId plan).length < plan.length →
        ∃ r, (executePlan env tabId plan).getLast? = some r ∧ r.success = false) := by
  induction plan with
  | nil =>
      simp [executePlan]
  | cons step rest ih =>
      obtain ⟨ih1, ih2, ih3, ih4⟩ := ih
      by_cases h : (execStep env tabId step).success = true
      · have hrw : executePlan env tabId (step :: rest)
            = execStep env tabId step :: executePlan env tabId rest := by
          simp [executePlan, h]
        rw [hrw]
        refine ⟨by simpa using ih1, ?_, ?_, ?_⟩
        · intro i hi
          cases i with
          | zero => simpa using h
          | succ n =>
              have := ih2 n (by simpa using hi)
              simpa using this
        · intro hall
          have hrest : ∀ r ∈ executePlan env tabId rest, r.success = true :=
            fun r hr => hall r (List.mem_cons_of_mem _ hr)
          simp [ih3 hrest]
        · intro hlt
          have hlt' : (executePlan env tabId rest).length < rest.length := by
            simpa using hlt
          obtain ⟨r, hr, hf⟩ := ih4 hlt'
          refine ⟨r, ?_, hf⟩
          cases hE : executePlan env tabId rest with
          | nil => rw [hE] at hr; simp at hr
          | cons b l =>
              rw [hE] at hr
              rw [List.getLast?_cons_cons]
              exact hr
      · have hf : (execStep env tabId step).success = false := by
          cases hs : (execStep env tabId step).success
          · rfl
          · exact absurd hs h
        have hrw : executePlan env tabId (step :: rest)
            = [execStep env tabId step] := by
          simp [executePlan, hf]
        rw [hrw]
        refine ⟨by simp, ?_, ?_, ?_⟩
        · intro i hi
          simp at hi
        · intro hall
          have := hall (execStep env tabId step) (by simp)
          rw [this] at hf
          cases hf
        · intro _
          exact ⟨execStep env tabId step, rfl, hf⟩

/-- Witness for corrected C1: a two-step plan failing at the first step
gives a strictly shorter result list whose last entry failed. -/
theorem executePlan_failfast_amended_witness :
    (executePlan cexEnv none cexPlan2).length ≤ cexPlan2.length
    ∧ (∃ r, (executePlan cexEnv none cexPlan2).getLast? = some r
        ∧ r.success = false) :=
  ⟨(executePlan_failfast_amended cexEnv none cexPlan2).1,
   (executePlan_failfast_amended cexEnv none cexPlan2).2.2.2 (by decide)⟩

end AIB
